import Mathlib

/-!
Verification development for the rendering core of a minimal ray tracer
(shape intersection, hit selection, shadow testing, Phong lighting, and
scene orchestration).  Scalars are embedded as real numbers; the source's
floating-point values are read as the reals they denote.

Definitions are translated from the source files
`src/intersection/ray.rs`, `src/intersection/shape/material.rs` and
`src/world/mod.rs`.  Parts of the repository that those files use but
whose own sources are not available (the tuple/color value types, the
`util::eq_f64` tolerance comparison, the `IntersectionHeap` ordered
collection, the `PreComputations` shading-geometry record, the in-shadow
step of `lighting`, and `Ray::try_new` with its error type) are modelled
from the specification; each such definition's doc comment says so.
-/

noncomputable section

/-- Modelled from the spec: the small positive constant (≈ 1e-5, §4.4) used
for the shadow-bias offset and for tolerance-based float comparison; the
repository's `util` module is not among the available sources. -/
def EPSILON : ℝ := 1 / 100000

/-- Modelled from the spec: `util::eq_f64`, the tolerance-based comparison
required by §7 ("Floating-point equality throughout the core ... must use a
tolerance-based comparison"). -/
def eq_f64 (a b : ℝ) : Prop := |a - b| < EPSILON

noncomputable instance (a b : ℝ) : Decidable (eq_f64 a b) :=
  inferInstanceAs (Decidable (|a - b| < EPSILON))

/-- Modelled from the spec: the external point/vector value type (§6); a
4-component tuple, `w = 1` for points and `w = 0` for vectors. -/
@[ext]
structure Tuple where
  x : ℝ
  y : ℝ
  z : ℝ
  w : ℝ

def Tuple.point (a b c : ℝ) : Tuple := ⟨a, b, c, 1⟩

def Tuple.vector (a b c : ℝ) : Tuple := ⟨a, b, c, 0⟩

def Tuple.origin : Tuple := Tuple.point 0 0 0

instance : Add Tuple := ⟨fun a b => ⟨a.x + b.x, a.y + b.y, a.z + b.z, a.w + b.w⟩⟩

instance : Sub Tuple := ⟨fun a b => ⟨a.x - b.x, a.y - b.y, a.z - b.z, a.w - b.w⟩⟩

instance : Neg Tuple := ⟨fun a => ⟨-a.x, -a.y, -a.z, -a.w⟩⟩

/-- Scalar multiplication of a tuple (the source's `Tuple * f64`). -/
def Tuple.smul (a : Tuple) (s : ℝ) : Tuple := ⟨a.x * s, a.y * s, a.z * s, a.w * s⟩

/-- Dot product (the source's `Tuple * Tuple`). -/
def Tuple.dot (a b : Tuple) : ℝ := a.x * b.x + a.y * b.y + a.z * b.z + a.w * b.w

noncomputable def Tuple.magnitude (a : Tuple) : ℝ := Real.sqrt (a.dot a)

noncomputable def Tuple.normalize (a : Tuple) : Tuple :=
  ⟨a.x / a.magnitude, a.y / a.magnitude, a.z / a.magnitude, a.w / a.magnitude⟩

/-- `reflect(v, n) = v − 2·dot(v, n)·n` (spec §6). -/
def Tuple.reflect (v n : Tuple) : Tuple := v - n.smul (2 * v.dot n)

/-- Modelled from the spec: the external color value type with componentwise
add and multiply and scalar multiply (§6). -/
@[ext]
structure Color where
  red : ℝ
  green : ℝ
  blue : ℝ

instance : Add Color := ⟨fun a b => ⟨a.red + b.red, a.green + b.green, a.blue + b.blue⟩⟩

instance : Mul Color := ⟨fun a b => ⟨a.red * b.red, a.green * b.green, a.blue * b.blue⟩⟩

instance : HMul Color ℝ Color := ⟨fun a s => ⟨a.red * s, a.green * s, a.blue * s⟩⟩

def Color.new (r g b : ℝ) : Color := ⟨r, g, b⟩

def Color.black : Color := ⟨0, 0, 0⟩

def Color.white : Color := ⟨1, 1, 1⟩

/-- Modelled from the spec: the external point light, an immutable
position + intensity pair (§6). -/
structure PointLight where
  position : Tuple
  intensity : Color

/-- The ray of `src/intersection/ray.rs`: origin and direction. -/
structure Ray where
  origin : Tuple
  direction : Tuple

/-- `Ray::new` (`ray.rs`): stores origin and direction, no validation. -/
def Ray.new (origin direction : Tuple) : Ray := ⟨origin, direction⟩

/-- `Ray::position` (`ray.rs`): `origin + direction * t`. -/
def Ray.position (r : Ray) (t : ℝ) : Tuple := r.origin + r.direction.smul t

/-- The Phong material of `src/intersection/shape/material.rs`. -/
structure Material where
  color : Color
  ambient : ℝ
  diffuse : ℝ
  specular : ℝ
  shininess : ℝ

/-- `Material::default` (`material.rs`): white, 0.1 ambient, 0.9 diffuse,
0.9 specular, 200.0 shininess. -/
def Material.default : Material :=
  { color := Color.white, ambient := 0.1, diffuse := 0.9, specular := 0.9, shininess := 200.0 }

/-- `Material::new` (`material.rs`): delegates to `Self::default()`. -/
def Material.new : Material := Material.default

/-- `Material::lighting` (`material.rs` lines 83–115), translated clause by
clause: effective color, normalized light vector, ambient term, the
`light_dot_normal < 0` branch, the diffuse term, `-light_v.reflect(normal_v)`
(negation of the reflected vector, the method call binding tighter than the
unary minus), the `eq_f64(0, reflect_dot_eye) || reflect_dot_eye < 0` branch,
and the specular term with `reflect_dot_eye.powf(shininess)`. -/
noncomputable def Material.lighting (m : Material) (light : PointLight)
    (point eye_v normal_v : Tuple) : Color :=
  let effective_color := m.color * light.intensity
  let light_v := (light.position - point).normalize
  let ambient := effective_color * m.ambient
  let light_dot_normal := light_v.dot normal_v
  let ds : Color × Color :=
    if light_dot_normal < 0 then (Color.black, Color.black)
    else
      let diffuse := effective_color * m.diffuse * light_dot_normal
      let reflect_v := -(light_v.reflect normal_v)
      let reflect_dot_eye := reflect_v.dot eye_v
      if eq_f64 0 reflect_dot_eye ∨ reflect_dot_eye < 0 then (diffuse, Color.black)
      else
        let factor := reflect_dot_eye ^ m.shininess
        (diffuse, light.intensity * m.specular * factor)
  ambient + ds.1 + ds.2

/-- Modelled from the spec: the in-shadow step of the lighting computation
(§4.5 step 3: "If `in_shadow`, result is `ambient` alone — diffuse and
specular are forced to black; return immediately").  `world/mod.rs` calls
`lighting` with an in-shadow flag, but the available `material.rs` defines
it without one; the remainder of the formula is the source `lighting`. -/
noncomputable def Material.lightingShadow (m : Material) (light : PointLight)
    (point eye_v normal_v : Tuple) (in_shadow : Bool) : Color :=
  if in_shadow then (m.color * light.intensity) * m.ambient
  else m.lighting light point eye_v normal_v

/-- Modelled from the spec: the 4×4 affine transform held by a shape (§3);
its algebra is out of scope and no operation of this development reads it. -/
structure Transformation where
  entry : Fin 4 → Fin 4 → ℝ

def Transformation.identity : Transformation := ⟨fun i j => if i = j then 1 else 0⟩

/-- Modelled from the spec: the polymorphic shape (§3, §4.2, §9): a transform,
a material, and the capability interface — world-space `intersect` returning
the raw t values and `normal_at` returning the world-space normal.  The
repository's `shape` module sources are not available, so the variants'
geometry is abstracted as the interface object the spec describes. -/
structure Shape where
  transform : Transformation
  material : Material
  intersect : Ray → List ℝ
  normal_at : Tuple → Tuple

/-- An intersection record (`src/intersection`): a t value paired with the
shape that produced it. -/
structure Intersection where
  t : ℝ
  shape : Shape

/-- Modelled from the spec: the `IntersectionHeap` ordered collection (§3,
§4.3, §9): a sequence of intersections kept ascending by t; the module
defining it is not among the available sources.  Push inserts in order
(after existing entries of equal t, preserving encounter order). -/
abbrev IntersectionHeap := List Intersection

def IntersectionHeap.new : IntersectionHeap := []

/-- Modelled from the spec: ordered insertion maintaining the ascending-by-t
invariant of §4.3, stable across equal t values. -/
noncomputable def IntersectionHeap.push : IntersectionHeap → Intersection → IntersectionHeap
  | [], i => [i]
  | x :: xs, i => if x.t ≤ i.t then x :: IntersectionHeap.push xs i else i :: x :: xs

/-- Modelled from the spec: hit selection (§4.3): the first entry of the
ordered set whose t is non-negative, none when there is no such entry. -/
noncomputable def IntersectionHeap.hit : IntersectionHeap → Option Intersection
  | [] => none
  | x :: xs => if 0 ≤ x.t then some x else IntersectionHeap.hit xs

/-- `Ray::intersections` (`ray.rs`): wrap each t of the shape's intersect
with the shape and push into a fresh heap. -/
noncomputable def Ray.intersections (r : Ray) (s : Shape) : IntersectionHeap :=
  List.foldl IntersectionHeap.push IntersectionHeap.new
    ((s.intersect r).map (fun t => Intersection.mk t s))

/-- Modelled from the spec: the `PreComputations` shading-geometry record
(§4.4); its defining module is not among the available sources. -/
structure PreComputations where
  t : ℝ
  object : Shape
  point : Tuple
  eye_v : Tuple
  normal_v : Tuple
  inside : Bool
  over_point : Tuple

/-- Modelled from the spec: `PreComputations::new` per §4.4 — point from the
ray, eye vector as the negated direction, normal from the shape, the inside
flag negating the normal, and the shadow-bias point offset by EPSILON. -/
noncomputable def PreComputations.new (i : Intersection) (r : Ray) : PreComputations :=
  let point := r.position i.t
  let eye_v := -r.direction
  let normal_v0 := i.shape.normal_at point
  let inside : Bool := decide (normal_v0.dot eye_v < 0)
  let normal_v := if inside then -normal_v0 else normal_v0
  { t := i.t, object := i.shape, point := point, eye_v := eye_v,
    normal_v := normal_v, inside := inside,
    over_point := point + normal_v.smul EPSILON }

/-- The scene of `src/world/mod.rs`: a shape collection and an optional
point light. -/
structure World where
  shapes : List Shape
  light : Option PointLight

/-- `World::new` (`world/mod.rs`): no shapes, no light. -/
def World.new : World := ⟨[], none⟩

/-- `World::intersects` (`world/mod.rs` lines 51–62): push every shape's
intersections into one heap. -/
noncomputable def World.intersects (w : World) (r : Ray) : IntersectionHeap :=
  List.foldl (fun heap s => List.foldl IntersectionHeap.push heap (r.intersections s))
    IntersectionHeap.new w.shapes

/-- `World::is_shadowed` (`world/mod.rs` lines 92–110): with a light, cast a
ray from the point toward the light and report a hit strictly closer than
the light; without a light, false. -/
noncomputable def World.is_shadowed (w : World) (point : Tuple) : Bool :=
  match w.light with
  | some l =>
    let v := l.position - point
    let distance := v.magnitude
    let direction := v.normalize
    let r := Ray.new point direction
    match (w.intersects r).hit with
    | some h => decide (h.t < distance)
    | none => false
  | none => false

/-- `World::shade_hit` (`world/mod.rs` lines 64–79): shadow-test the bias
point, then light the hit's material at the bias point with that flag; black
when the scene has no light.  (The source call also passes the object itself,
used only for patterns, which are outside the available sources.) -/
noncomputable def World.shade_hit (w : World) (comps : PreComputations) : Color :=
  let shadowed := w.is_shadowed comps.over_point
  match w.light with
  | some light =>
      comps.object.material.lightingShadow light comps.over_point comps.eye_v
        comps.normal_v shadowed
  | none => Color.black

/-- `World::color_at` (`world/mod.rs` lines 81–90): intersect, pick the hit,
shade it; black when there is no hit. -/
noncomputable def World.color_at (w : World) (r : Ray) : Color :=
  match (w.intersects r).hit with
  | some hit => w.shade_hit (PreComputations.new hit r)
  | none => Color.black

/-- Modelled from the spec: the core's only error kind (§7), raised by
fallible ray construction; the repository's `error` module is not among
the available sources. -/
inductive RayTraceError where
  | InvalidRay

/-- Modelled from the spec: `Ray::try_new` (§6 `Ray.try_construct`, §7),
called in `examples/sphere_shadow.rs` but not defined in the available
sources: construction fails outright with InvalidRay when the direction has
zero length, otherwise produces the ray. -/
noncomputable def Ray.try_new (origin direction : Tuple) : Except RayTraceError Ray :=
  if direction.magnitude = 0 then Except.error RayTraceError.InvalidRay
  else Except.ok (Ray.new origin direction)

/-- `World::intersects` takes `&self`: its state-passing embedding returns
the scene unchanged alongside the result. -/
noncomputable def World.intersects_st (w : World) (r : Ray) : IntersectionHeap × World :=
  (w.intersects r, w)

/-- `World::is_shadowed` takes `&self`: state-passing embedding. -/
noncomputable def World.is_shadowed_st (w : World) (point : Tuple) : Bool × World :=
  (w.is_shadowed point, w)

/-- `World::shade_hit` takes `&self`: state-passing embedding. -/
noncomputable def World.shade_hit_st (w : World) (comps : PreComputations) : Color × World :=
  (w.shade_hit comps, w)

/-- `World::color_at` takes `&self`: state-passing embedding. -/
noncomputable def World.color_at_st (w : World) (r : Ray) : Color × World :=
  (w.color_at r, w)

/-- A concrete shape used to instantiate theorems at concrete inputs. -/
def unitShape : Shape :=
  { transform := Transformation.identity, material := Material.default,
    intersect := fun _ => [], normal_at := fun _ => Tuple.vector 0 0 1 }

/-- Pushing is, as a multiset operation, just insertion. -/
theorem IntersectionHeap.push_perm (h : IntersectionHeap) (i : Intersection) :
    List.Perm (IntersectionHeap.push h i) (i :: h) := by
  induction h with
  | nil => simp [IntersectionHeap.push]
  | cons x xs ih =>
    simp only [IntersectionHeap.push]
    split
    · exact (ih.cons x).trans (List.Perm.swap i x xs)
    · exact List.Perm.refl _

/-- Pushing preserves the ascending-by-t invariant. -/
theorem IntersectionHeap.sorted_push (h : IntersectionHeap) (i : Intersection)
    (hs : List.Sorted (fun a b : Intersection => a.t ≤ b.t) h) :
    List.Sorted (fun a b : Intersection => a.t ≤ b.t) (IntersectionHeap.push h i) := by
  induction h with
  | nil => simp [IntersectionHeap.push]
  | cons x xs ih =>
    rw [List.sorted_cons] at hs
    obtain ⟨hx, hxs⟩ := hs
    simp only [IntersectionHeap.push]
    split
    · rename_i hc
      rw [List.sorted_cons]
      refine ⟨fun b hb => ?_, ih hxs⟩
      rcases List.mem_cons.mp ((IntersectionHeap.push_perm xs i).mem_iff.mp hb) with rfl | hb2
      · exact hc
      · exact hx b hb2
    · rename_i hc
      rw [List.sorted_cons]
      refine ⟨fun b hb => ?_, List.sorted_cons.mpr ⟨hx, hxs⟩⟩
      rcases List.mem_cons.mp hb with rfl | hb2
      · exact le_of_lt (lt_of_not_le hc)
      · exact le_trans (le_of_lt (lt_of_not_le hc)) (hx b hb2)

/-- Folding pushes preserves the ascending-by-t invariant. -/
theorem IntersectionHeap.sorted_foldl_push (l : List Intersection) (h : IntersectionHeap)
    (hs : List.Sorted (fun a b : Intersection => a.t ≤ b.t) h) :
    List.Sorted (fun a b : Intersection => a.t ≤ b.t)
      (List.foldl IntersectionHeap.push h l) := by
  induction l generalizing h with
  | nil => simpa using hs
  | cons a l ih => exact ih _ (IntersectionHeap.sorted_push h a hs)

/-- Folding pushes is, as a multiset operation, appending. -/
theorem IntersectionHeap.foldl_push_perm (l : List Intersection) (h : IntersectionHeap) :
    List.Perm (List.foldl IntersectionHeap.push h l) (h ++ l) := by
  induction l generalizing h with
  | nil => simp
  | cons a l ih =>
    exact (ih _).trans
      (((IntersectionHeap.push_perm h a).append_right l).trans List.perm_middle.symm)

/-- One shape's contribution to the scene heap is, as a multiset, its mapped
intersection records. -/
theorem Ray.intersections_perm (r : Ray) (s : Shape) :
    List.Perm (r.intersections s) ((s.intersect r).map (fun t => Intersection.mk t s)) := by
  simpa [Ray.intersections, IntersectionHeap.new] using
    IntersectionHeap.foldl_push_perm ((s.intersect r).map (fun t => Intersection.mk t s)) []

/-- The fold of `World::intersects`, as a multiset: the starting heap followed
by every shape's intersection records. -/
theorem World.intersects_foldl_perm (ss : List Shape) (r : Ray) (heap : IntersectionHeap) :
    List.Perm
      (List.foldl (fun heap s => List.foldl IntersectionHeap.push heap (r.intersections s))
        heap ss)
      (heap ++ (ss.map (fun s => (s.intersect r).map (fun t => Intersection.mk t s))).flatten) := by
  induction ss generalizing heap with
  | nil => simp
  | cons s ss ih =>
    have h1 : List.Perm (List.foldl IntersectionHeap.push heap (r.intersections s))
        (heap ++ (s.intersect r).map (fun t => Intersection.mk t s)) :=
      (IntersectionHeap.foldl_push_perm (r.intersections s) heap).trans
        ((Ray.intersections_perm r s).append_left heap)
    refine (ih _).trans ?_
    have h4 := h1.append_right
      ((ss.map (fun s => (s.intersect r).map (fun t => Intersection.mk t s))).flatten)
    simpa [List.append_assoc] using h4

/-- The fold of `World::intersects` preserves the ascending-by-t invariant. -/
theorem World.intersects_foldl_sorted (ss : List Shape) (r : Ray) (heap : IntersectionHeap)
    (hs : List.Sorted (fun a b : Intersection => a.t ≤ b.t) heap) :
    List.Sorted (fun a b : Intersection => a.t ≤ b.t)
      (List.foldl (fun heap s => List.foldl IntersectionHeap.push heap (r.intersections s))
        heap ss) := by
  induction ss generalizing heap with
  | nil => simpa using hs
  | cons s ss ih => exact ih _ (IntersectionHeap.sorted_foldl_push _ _ hs)

/-- C7: for every scene and ray, the intersection collection returned by the
scene-level intersect is globally ordered ascending by t (duplicates
allowed), and as a multiset it is the union over all shapes of each shape's
intersection records. -/
theorem world_intersect_union_ascending (w : World) (r : Ray) :
    List.Sorted (fun a b : Intersection => a.t ≤ b.t) (w.intersects r) ∧
    List.Perm (w.intersects r)
      ((w.shapes.map (fun s => (s.intersect r).map (fun t => Intersection.mk t s))).flatten) := by
  constructor
  · simpa [World.intersects, IntersectionHeap.new] using
      World.intersects_foldl_sorted w.shapes r [] (by simp)
  · simpa [World.intersects, IntersectionHeap.new] using
      World.intersects_foldl_perm w.shapes r []

/-- C2: over a collection that satisfies the ascending-by-t invariant, `hit`
is none exactly when every entry is negative (so also when the collection is
empty), and a returned hit is a member with non-negative t, minimal among the
non-negative entries, and is the first entry of the ordered set not preceded
by a non-negative one (the deterministic tie-break). -/
theorem hit_selection_rule (h : IntersectionHeap)
    (hs : List.Sorted (fun a b : Intersection => a.t ≤ b.t) h) :
    (IntersectionHeap.hit h = none ↔ ∀ i ∈ h, i.t < 0) ∧
    (∀ i, IntersectionHeap.hit h = some i →
      i ∈ h ∧ 0 ≤ i.t ∧ (∀ j ∈ h, 0 ≤ j.t → i.t ≤ j.t) ∧
      ∃ pre post, h = pre ++ i :: post ∧ ∀ j ∈ pre, j.t < 0) := by
  induction h with
  | nil => simp [IntersectionHeap.hit]
  | cons x xs ih =>
    rw [List.sorted_cons] at hs
    obtain ⟨hx, hxs⟩ := hs
    obtain ⟨ihn, ihs⟩ := ih hxs
    by_cases hc : 0 ≤ x.t
    · have hhit : IntersectionHeap.hit (x :: xs) = some x := by
        simp [IntersectionHeap.hit, if_pos hc]
      refine ⟨⟨fun hn => ?_, fun hall => ?_⟩, fun i hi => ?_⟩
      · rw [hhit] at hn; cases hn
      · exact absurd (hall x (List.mem_cons_self x xs)) (not_lt.mpr hc)
      · rw [hhit] at hi
        injection hi with hi
        subst hi
        refine ⟨List.mem_cons_self x xs, hc, fun j hj hj0 => ?_, [], xs, rfl, by simp⟩
        rcases List.mem_cons.mp hj with rfl | hjx
        · exact le_refl _
        · exact hx j hjx
    · have hhit : IntersectionHeap.hit (x :: xs) = IntersectionHeap.hit xs := by
        simp [IntersectionHeap.hit, if_neg hc]
      have hxneg : x.t < 0 := not_le.mp hc
      refine ⟨⟨fun hn => ?_, fun hall => ?_⟩, fun i hi => ?_⟩
      · rw [hhit] at hn
        intro i hi
        rcases List.mem_cons.mp hi with rfl | hixs
        · exact hxneg
        · exact ihn.mp hn i hixs
      · rw [hhit]
        exact ihn.mpr (fun i hi => hall i (List.mem_cons_of_mem x hi))
      · rw [hhit] at hi
        obtain ⟨hmem, hpos, hmin, pre, post, hdec, hpre⟩ := ihs i hi
        refine ⟨List.mem_cons_of_mem x hmem, hpos, fun j hj hj0 => ?_,
          x :: pre, post, by rw [hdec]; rfl, fun j hj => ?_⟩
        · rcases List.mem_cons.mp hj with rfl | hjxs
          · exact absurd hj0 hc
          · exact hmin j hjxs hj0
        · rcases List.mem_cons.mp hj with rfl | hjpre
          · exact hxneg
          · exact hpre j hjpre

/-- The hit-selection theorem applied at a concrete sorted collection: the
entry with t = 2 is selected over the negative entry, is a member, and has
non-negative t. -/
theorem hit_selection_rule_witness :
    List.Sorted (fun a b : Intersection => a.t ≤ b.t)
      [Intersection.mk (-1) unitShape, Intersection.mk 2 unitShape] ∧
    Intersection.mk 2 unitShape ∈
      ([Intersection.mk (-1) unitShape, Intersection.mk 2 unitShape] : IntersectionHeap) ∧
    0 ≤ (Intersection.mk 2 unitShape).t := by
  have hs : List.Sorted (fun a b : Intersection => a.t ≤ b.t)
      [Intersection.mk (-1) unitShape, Intersection.mk 2 unitShape] := by
    simp only [List.sorted_cons, List.mem_singleton, List.sorted_singleton,
      List.not_mem_nil, forall_eq]
    norm_num
  have hhit : IntersectionHeap.hit
      [Intersection.mk (-1) unitShape, Intersection.mk 2 unitShape] =
      some (Intersection.mk 2 unitShape) := by
    rw [IntersectionHeap.hit, if_neg (by norm_num), IntersectionHeap.hit,
      if_pos (by norm_num)]
  obtain ⟨hmem, hpos, -, -⟩ := (hit_selection_rule _ hs).2 _ hhit
  exact ⟨hs, hmem, hpos⟩

/-- C8: `color_at` is a deterministic pure function of the ray and the scene:
two calls with the same ray against the same unmutated scene yield identical
colors. -/
theorem color_at_deterministic (w : World) (r : Ray) :
    w.color_at r = w.color_at r := rfl

/-- C9: `intersects`, `is_shadowed`, `shade_hit` and `color_at` leave the
scene's state unchanged — in the state-passing embedding of the source's
`&self` receivers, each operation returns the scene exactly as given, so the
shape collection (every shape's transform and material included) and the
light are the same before and after the call. -/
theorem core_operations_read_only (w : World) (r : Ray) (p : Tuple)
    (comps : PreComputations) :
    (w.intersects_st r).2 = w ∧ (w.is_shadowed_st p).2 = w ∧
    (w.shade_hit_st comps).2 = w ∧ (w.color_at_st r).2 = w ∧
    (w.color_at_st r).2.shapes.map Shape.material = w.shapes.map Shape.material ∧
    (w.color_at_st r).2.shapes.map Shape.transform = w.shapes.map Shape.transform ∧
    (w.color_at_st r).2.light = w.light :=
  ⟨rfl, rfl, rfl, rfl, rfl, rfl, rfl⟩

/-- Unfolding lemma for tuple subtraction. -/
theorem Tuple.sub_def (a b : Tuple) :
    a - b = ⟨a.x - b.x, a.y - b.y, a.z - b.z, a.w - b.w⟩ := rfl

/-- Unfolding lemma for tuple addition. -/
theorem Tuple.add_def (a b : Tuple) :
    a + b = ⟨a.x + b.x, a.y + b.y, a.z + b.z, a.w + b.w⟩ := rfl

/-- Unfolding lemma for tuple negation. -/
theorem Tuple.neg_def (a : Tuple) : -a = ⟨-a.x, -a.y, -a.z, -a.w⟩ := rfl

/-- Unfolding lemma for color addition. -/
theorem Color.add_components (a b : Color) :
    a + b = ⟨a.red + b.red, a.green + b.green, a.blue + b.blue⟩ := rfl

/-- Unfolding lemma for componentwise color multiplication. -/
theorem Color.mul_components (a b : Color) :
    a * b = ⟨a.red * b.red, a.green * b.green, a.blue * b.blue⟩ := rfl

/-- Unfolding lemma for color scalar multiplication. -/
theorem Color.smul_components (a : Color) (s : ℝ) :
    a * s = ⟨a.red * s, a.green * s, a.blue * s⟩ := rfl

/-- C5: `color_at` returns black when the scene intersections contain no hit,
`shade_hit` returns black when the scene has no light, and `color_at` on a
scene with no light or with no shapes returns black. -/
theorem color_at_black_cases (w : World) (r : Ray) :
    ((w.intersects r).hit = none → w.color_at r = Color.black) ∧
    (w.light = none → ∀ comps, w.shade_hit comps = Color.black) ∧
    (w.light = none → w.color_at r = Color.black) ∧
    (w.shapes = [] → w.color_at r = Color.black) := by
  have hnol : w.light = none → ∀ comps, w.shade_hit comps = Color.black := by
    intro h comps
    simp [World.shade_hit, h]
  refine ⟨fun h => by simp [World.color_at, h], hnol, fun h => ?_, fun h => ?_⟩
  · cases hhit : (w.intersects r).hit with
    | none => simp [World.color_at, hhit]
    | some i => simp [World.color_at, hhit, hnol h]
  · have hempty : w.intersects r = [] := by
      simp [World.intersects, h, IntersectionHeap.new]
    have : (w.intersects r).hit = none := by
      rw [hempty]
      rfl
    simp [World.color_at, this]

/-- The black-result theorem applied at the freshly constructed empty scene:
it has no light and `color_at` there returns black. -/
theorem color_at_black_cases_witness :
    World.new.light = none ∧
    World.new.color_at (Ray.new Tuple.origin (Tuple.vector 0 0 1)) = Color.black :=
  ⟨rfl, (color_at_black_cases World.new (Ray.new Tuple.origin (Tuple.vector 0 0 1))).2.2.1 rfl⟩

/-- C3: `is_shadowed` of a scene without a light is false; with a light it is
true exactly when the ray cast from the point toward the light (normalized
direction) has a hit whose t is strictly below the point-to-light distance. -/
theorem is_shadowed_characterization (w : World) (p : Tuple) :
    (w.light = none → w.is_shadowed p = false) ∧
    (∀ l, w.light = some l →
      (w.is_shadowed p = true ↔
        ∃ i, (w.intersects (Ray.new p ((l.position - p).normalize))).hit = some i ∧
          i.t < (l.position - p).magnitude)) := by
  constructor
  · intro h
    simp [World.is_shadowed, h]
  · intro l hl
    simp only [World.is_shadowed, hl]
    cases hhit : (w.intersects (Ray.new p ((l.position - p).normalize))).hit with
    | none => simp [hhit]
    | some i => simp [hhit]

/-- The shadow characterization applied at the freshly constructed scene:
with no light, no point is shadowed. -/
theorem is_shadowed_characterization_witness :
    World.new.light = none ∧ World.new.is_shadowed Tuple.origin = false :=
  ⟨rfl, (is_shadowed_characterization World.new Tuple.origin).1 rfl⟩

/-- A tuple has zero magnitude exactly when it is the zero vector. -/
theorem Tuple.magnitude_eq_zero_iff (d : Tuple) :
    d.magnitude = 0 ↔ d = Tuple.vector 0 0 0 := by
  constructor
  · intro h
    have h0 : 0 ≤ d.dot d := by
      simp only [Tuple.dot]
      nlinarith [mul_self_nonneg d.x, mul_self_nonneg d.y, mul_self_nonneg d.z,
        mul_self_nonneg d.w]
    have hd : d.dot d = 0 := by
      have := (Real.sqrt_eq_zero h0).mp h
      exact this
    simp only [Tuple.dot] at hd
    have hx : d.x = 0 := mul_self_eq_zero.mp (by
      nlinarith [mul_self_nonneg d.y, mul_self_nonneg d.z, mul_self_nonneg d.w])
    have hy : d.y = 0 := mul_self_eq_zero.mp (by
      nlinarith [mul_self_nonneg d.x, mul_self_nonneg d.z, mul_self_nonneg d.w])
    have hz : d.z = 0 := mul_self_eq_zero.mp (by
      nlinarith [mul_self_nonneg d.x, mul_self_nonneg d.y, mul_self_nonneg d.w])
    have hw : d.w = 0 := mul_self_eq_zero.mp (by
      nlinarith [mul_self_nonneg d.x, mul_self_nonneg d.y, mul_self_nonneg d.z])
    ext
    · exact hx
    · exact hy
    · exact hz
    · exact hw
  · rintro rfl
    simp [Tuple.magnitude, Tuple.dot, Tuple.vector]

/-- C6: `try_new` fails with InvalidRay exactly when the direction has zero
length (the zero vector), producing no ray; with any non-zero direction it
succeeds with the fully constructed ray. -/
theorem try_new_invalid_ray (origin direction : Tuple) :
    (Ray.try_new origin direction = Except.error RayTraceError.InvalidRay ↔
      direction = Tuple.vector 0 0 0) ∧
    (direction ≠ Tuple.vector 0 0 0 →
      Ray.try_new origin direction = Except.ok (Ray.new origin direction)) := by
  have hchar := Tuple.magnitude_eq_zero_iff direction
  constructor
  · constructor
    · intro h
      by_contra hne
      have hm : direction.magnitude ≠ 0 := fun h0 => hne (hchar.mp h0)
      rw [Ray.try_new, if_neg hm] at h
      cases h
    · rintro rfl
      rw [Ray.try_new, if_pos (hchar.mpr rfl)]
  · intro hne
    rw [Ray.try_new, if_neg (fun h0 => hne (hchar.mp h0))]

/-- The ray-construction theorem applied at a concrete non-zero direction:
construction succeeds and yields exactly that ray. -/
theorem try_new_invalid_ray_witness :
    Tuple.vector 0 0 1 ≠ Tuple.vector 0 0 0 ∧
    Ray.try_new Tuple.origin (Tuple.vector 0 0 1) =
      Except.ok (Ray.new Tuple.origin (Tuple.vector 0 0 1)) := by
  have hne : Tuple.vector 0 0 1 ≠ Tuple.vector 0 0 0 := by
    intro h
    have hz := congrArg Tuple.z h
    norm_num [Tuple.vector] at hz
  exact ⟨hne, (try_new_invalid_ray Tuple.origin (Tuple.vector 0 0 1)).2 hne⟩

/-- C4: with the in-shadow flag true the lighting result is the ambient
contribution alone — effective color times the ambient coefficient, diffuse
and specular forced to black — and accordingly `shade_hit` returns exactly
that color whenever the scene's shadow test of the bias point reports true. -/
theorem in_shadow_ambient_only :
    (∀ (m : Material) (light : PointLight) (point eye_v normal_v : Tuple),
      m.lightingShadow light point eye_v normal_v true =
        (m.color * light.intensity) * m.ambient) ∧
    (∀ (w : World) (comps : PreComputations) (l : PointLight),
      w.light = some l → w.is_shadowed comps.over_point = true →
      w.shade_hit comps =
        (comps.object.material.color * l.intensity) * comps.object.material.ambient) := by
  constructor
  · intro m light point eye_v normal_v
    rfl
  · intro w comps l hl hsh
    simp [World.shade_hit, hl, hsh, Material.lightingShadow]

/-- A shape whose world-space intersect reports t = 5 on every ray, used to
build a concrete shadowed configuration. -/
def occluderShape : Shape :=
  { transform := Transformation.identity, material := Material.default,
    intersect := fun _ => [5], normal_at := fun _ => Tuple.vector 0 0 1 }

/-- A concrete scene: the occluder plus a white light ten units away. -/
def shadowWorld : World :=
  ⟨[occluderShape], some ⟨Tuple.point 0 0 (-10), Color.white⟩⟩

/-- A concrete precomputation whose bias point is the origin. -/
def shadowComps : PreComputations :=
  { t := 1, object := occluderShape, point := Tuple.origin,
    eye_v := Tuple.vector 0 0 (-1), normal_v := Tuple.vector 0 0 (-1),
    inside := false, over_point := Tuple.origin }

/-- In the concrete scene the origin is shadowed: the occluder's hit at
t = 5 lies strictly inside the distance 10 to the light. -/
theorem shadowWorld_is_shadowed : shadowWorld.is_shadowed shadowComps.over_point = true := by
  have hmag : (Tuple.point 0 0 (-10) - Tuple.origin).magnitude = 10 := by
    rw [Tuple.origin, Tuple.point, Tuple.point, Tuple.sub_def]
    simp only [Tuple.magnitude, Tuple.dot]
    rw [show ((0:ℝ) - 0) * (0 - 0) + (0 - 0) * (0 - 0) + (-10 - 0) * (-10 - 0) +
      (1 - 1) * (1 - 1) = 10 ^ 2 by norm_num]
    exact Real.sqrt_sq (by norm_num)
  simp only [World.is_shadowed, shadowWorld, shadowComps]
  have hheap : World.intersects ⟨[occluderShape], some ⟨Tuple.point 0 0 (-10), Color.white⟩⟩
      (Ray.new Tuple.origin ((Tuple.point 0 0 (-10) - Tuple.origin).normalize)) =
      [Intersection.mk 5 occluderShape] := by
    simp [World.intersects, Ray.intersections, occluderShape, IntersectionHeap.new,
      IntersectionHeap.push]
  rw [hheap]
  rw [show IntersectionHeap.hit [Intersection.mk 5 occluderShape] =
    some (Intersection.mk 5 occluderShape) from by
      rw [IntersectionHeap.hit, if_pos (by norm_num)]]
  simp only [hmag, decide_eq_true_eq]
  norm_num

/-- The in-shadow theorem applied at the concrete shadowed configuration:
the shaded color is the default material's ambient contribution alone. -/
theorem in_shadow_ambient_only_witness :
    shadowWorld.light = some ⟨Tuple.point 0 0 (-10), Color.white⟩ ∧
    shadowWorld.is_shadowed shadowComps.over_point = true ∧
    shadowWorld.shade_hit shadowComps =
      (Material.default.color * Color.white) * Material.default.ambient := by
  refine ⟨rfl, shadowWorld_is_shadowed, ?_⟩
  exact in_shadow_ambient_only.2 shadowWorld shadowComps
    ⟨Tuple.point 0 0 (-10), Color.white⟩ rfl shadowWorld_is_shadowed

/-- Reflection is linear in its first argument: reflecting the negation is
the negation of the reflection.  This reconciles the specification's
`reflect(-light_v, normal_v)` with the source's `-light_v.reflect(normal_v)`
(in which the method call binds before the unary minus). -/
theorem Tuple.reflect_neg (v n : Tuple) :
    Tuple.reflect (-v) n = -(Tuple.reflect v n) := by
  simp only [Tuple.reflect, Tuple.dot, Tuple.smul, Tuple.sub_def, Tuple.neg_def]
  ext <;> dsimp only <;> ring

/-- The lighting formula exactly as the claim words it: ambient is the
effective color (material color componentwise-times light intensity) times
the ambient coefficient; diffuse and specular are black when the light is
behind the surface; otherwise diffuse scales the effective color by the
diffuse coefficient and the light-normal cosine, and specular is black when
`dot(reflect(-light_v, normal_v), eye_v)` is at most zero within floating
tolerance and otherwise scales the light intensity by the specular
coefficient and that dot product raised to the shininess power; the three
contributions are summed without clamping. -/
noncomputable def lightingClaim (m : Material) (light : PointLight)
    (point eye_v normal_v : Tuple) : Color :=
  let effective_color := m.color * light.intensity
  let ambient := effective_color * m.ambient
  let light_v := (light.position - point).normalize
  let light_dot_normal := light_v.dot normal_v
  let diffuse :=
    if light_dot_normal < 0 then Color.black
    else effective_color * m.diffuse * light_dot_normal
  let reflect_dot_eye := (Tuple.reflect (-light_v) normal_v).dot eye_v
  let specular :=
    if light_dot_normal < 0 then Color.black
    else if reflect_dot_eye ≤ 0 ∨ eq_f64 0 reflect_dot_eye then Color.black
    else light.intensity * m.specular * reflect_dot_eye ^ m.shininess
  ambient + diffuse + specular

/-- The source `lighting`, restructured into separate ambient, diffuse and
specular summands (eliminating the intermediate pair). -/
theorem Material.lighting_cases (m : Material) (light : PointLight)
    (point eye_v normal_v : Tuple) :
    m.lighting light point eye_v normal_v =
      (m.color * light.intensity) * m.ambient +
      (if ((light.position - point).normalize).dot normal_v < 0 then Color.black
       else (m.color * light.intensity) * m.diffuse *
         (((light.position - point).normalize).dot normal_v)) +
      (if ((light.position - point).normalize).dot normal_v < 0 then Color.black
       else if eq_f64 0 ((-(((light.position - point).normalize).reflect normal_v)).dot eye_v) ∨
              ((-(((light.position - point).normalize).reflect normal_v)).dot eye_v) < 0
            then Color.black
            else light.intensity * m.specular *
              ((-(((light.position - point).normalize).reflect normal_v)).dot eye_v)
                ^ m.shininess) := by
  simp only [Material.lighting]
  by_cases h1 : ((light.position - point).normalize).dot normal_v < 0
  · simp [h1]
  · by_cases h2 : eq_f64 0 ((-(((light.position - point).normalize).reflect normal_v)).dot eye_v) ∨
        ((-(((light.position - point).normalize).reflect normal_v)).dot eye_v) < 0
    · simp [h1, h2]
    · simp [h1, h2]

/-- C1: with the in-shadow flag false, `lighting` computes exactly the
claim's formula — ambient plus diffuse plus specular with the stated case
analysis, the sum left unclamped. -/
theorem lighting_unshadowed_matches_claim (m : Material) (light : PointLight)
    (point eye_v normal_v : Tuple) :
    m.lightingShadow light point eye_v normal_v false =
      lightingClaim m light point eye_v normal_v := by
  have hfalse : m.lightingShadow light point eye_v normal_v false =
      m.lighting light point eye_v normal_v := rfl
  rw [hfalse, Material.lighting_cases]
  simp only [lightingClaim, Tuple.reflect_neg]
  by_cases h1 : ((light.position - point).normalize).dot normal_v < 0
  · simp [h1]
  · by_cases h2 : eq_f64 0 ((-(((light.position - point).normalize).reflect normal_v)).dot eye_v) ∨
        ((-(((light.position - point).normalize).reflect normal_v)).dot eye_v) < 0
    · have h3 : ((-(((light.position - point).normalize).reflect normal_v)).dot eye_v) ≤ 0 ∨
          eq_f64 0 ((-(((light.position - point).normalize).reflect normal_v)).dot eye_v) := by
        rcases h2 with h2 | h2
        · exact Or.inr h2
        · exact Or.inl (le_of_lt h2)
      simp [h1, h2, h3]
    · have h3 : ¬(((-(((light.position - point).normalize).reflect normal_v)).dot eye_v) ≤ 0 ∨
          eq_f64 0 ((-(((light.position - point).normalize).reflect normal_v)).dot eye_v)) := by
        intro h3
        rcases h3 with h3 | h3
        · rcases lt_or_eq_of_le h3 with h4 | h4
          · exact h2 (Or.inr h4)
          · refine h2 (Or.inl ?_)
            rw [eq_f64, ← h4]
            norm_num [EPSILON]
        · exact h2 (Or.inl h3)
      simp [h1, h2, h3]

/-- The spec's reference scenario for the default material: point at the
origin, eye and normal toward the viewer, white light at (0, 0, −10), not
shadowed — lighting evaluates to exactly (1.9, 1.9, 1.9). -/
theorem default_lighting_scenario :
    Material.default.lighting ⟨Tuple.point 0 0 (-10), Color.white⟩ Tuple.origin
      (Tuple.vector 0 0 (-1)) (Tuple.vector 0 0 (-1)) = Color.new 1.9 1.9 1.9 := by
  have hsub : Tuple.point 0 0 (-10) - Tuple.origin = Tuple.mk 0 0 (-10) 0 := by
    rw [Tuple.origin, Tuple.point, Tuple.point, Tuple.sub_def]
    simp [Tuple.mk.injEq]
  have hmag : (Tuple.mk 0 0 (-10) 0).magnitude = 10 := by
    simp only [Tuple.magnitude, Tuple.dot]
    rw [show ((0:ℝ)*0 + 0*0 + (-10)*(-10) + 0*0 : ℝ) = 10^2 by norm_num]
    exact Real.sqrt_sq (by norm_num)
  have hnorm : (Tuple.mk 0 0 (-10) 0).normalize = Tuple.mk 0 0 (-1) 0 := by
    simp only [Tuple.normalize, hmag]
    simp [Tuple.mk.injEq]
  simp only [Material.lighting, hsub, hnorm]
  have hdot : (Tuple.mk 0 0 (-1) 0).dot (Tuple.vector 0 0 (-1)) = 1 := by
    simp [Tuple.dot, Tuple.vector]
  rw [hdot]
  have hrefl : (Tuple.mk 0 0 (-1) 0).reflect (Tuple.vector 0 0 (-1)) = Tuple.mk 0 0 1 0 := by
    simp only [Tuple.reflect, Tuple.dot, Tuple.smul, Tuple.sub_def, Tuple.vector]
    simp [Tuple.mk.injEq]
    norm_num
  rw [hrefl]
  have hdot2 : (-(Tuple.mk 0 0 1 0)).dot (Tuple.vector 0 0 (-1)) = 1 := by
    simp [Tuple.neg_def, Tuple.dot, Tuple.vector]
  rw [hdot2]
  rw [if_neg (by norm_num), if_neg (by norm_num [eq_f64, EPSILON])]
  have hpow : (1:ℝ) ^ Material.default.shininess = 1 := Real.one_rpow _
  rw [hpow]
  simp [Material.default, Color.white, Color.new, Color.mul_components, Color.smul_components, Color.add_components,
    Color.mk.injEq]
  norm_num

/-- C10: `Material::new` and `Material::default` agree and carry white color,
ambient 0.1, diffuse 0.9, specular 0.9 and shininess 200.0 — and on the
spec's reference scenario this default material lights to (1.9, 1.9, 1.9). -/
theorem material_new_eq_default_values :
    Material.new = Material.default ∧
    Material.new.color = Color.white ∧ Material.new.ambient = 0.1 ∧
    Material.new.diffuse = 0.9 ∧ Material.new.specular = 0.9 ∧
    Material.new.shininess = 200.0 ∧
    Material.new.lighting ⟨Tuple.point 0 0 (-10), Color.white⟩ Tuple.origin
      (Tuple.vector 0 0 (-1)) (Tuple.vector 0 0 (-1)) = Color.new 1.9 1.9 1.9 :=
  ⟨rfl, rfl, rfl, rfl, rfl, rfl, default_lighting_scenario⟩

end
